import Mathlib

/-!
Verification of the `base` USB-to-serial firmware core.

The definitions below are a shallow embedding of the C sources:
  * `src/utils/cqeue.c`        — interrupt-safe circular byte queue
  * `src/driver/usb.c`         — endpoint register discipline, endpoint 0
                                 control engine, bulk data channel
  * `src/driver/usb_enum.c`    — enumeration, descriptors, CP2102 vendor
                                 protocol emulation

Machine integers are modelled as `Nat` with explicit truncation (`% 256` for
`char` stores, bit masks for registers).  Fatal error paths (the firmware's
`panic`, an intentional halt loop) are modelled as `Option.none`.
-/

set_option linter.all false

/-! ## Circular queue (src/utils/cqeue.c)

`struct cqueue` holds a backing byte array `buf` of `size` bytes, an input
cursor `ip`, an output cursor `op`, a live `count` and an overflow counter
`toss`.  The C cursors are pointers into `buf`; here they are indices.
`cq_add` stores its `int` argument into a `char` cell, hence the `% 256`
(char is unsigned on the target ABI). -/

structure Cqueue where
  size : Nat
  buf : List Nat
  ip : Nat
  op : Nat
  count : Nat
  toss : Nat
deriving DecidableEq

/-- `cq_init(qp, buf, size)`: cursors at the buffer start, `count = toss = 0`.
The C backing array is caller-provided and uninitialized; its cells are
modelled as zero (no unwritten cell is ever read through the queue API). -/
def cq_init (size : Nat) : Cqueue :=
  { size := size, buf := List.replicate size 0, ip := 0, op := 0,
    count := 0, toss := 0 }

/-- `cq_add(qp, ch)`: if there is room, store the byte at the write cursor,
advance it (wrapping at the buffer end) and bump `count`; otherwise bump the
`toss` overflow counter and drop the byte. -/
def cq_add (qp : Cqueue) (ch : Nat) : Cqueue :=
  if qp.count < qp.size then
    { qp with count := qp.count + 1,
              buf := qp.buf.set qp.ip (ch % 256),
              ip := if qp.size ≤ qp.ip + 1 then 0 else qp.ip + 1 }
  else
    { qp with toss := qp.toss + 1 }

/-- `cq_remove(qp)`: returns `-1` on an empty queue, otherwise the byte at the
read cursor, advancing it (wrapping) and decrementing `count`. -/
def cq_remove (qp : Cqueue) : Int × Cqueue :=
  if qp.count < 1 then (-1, qp)
  else
    (Int.ofNat (qp.buf.getD qp.op 0),
     { qp with op := if qp.size ≤ qp.op + 1 then 0 else qp.op + 1,
               count := qp.count - 1 })

/-- `cq_count(qp)`. -/
def cq_count (qp : Cqueue) : Nat := qp.count

/-- `cq_space(qp) = size - count`. -/
def cq_space (qp : Cqueue) : Nat := qp.size - qp.count

/-- `cq_toss(qp)`. -/
def cq_toss (qp : Cqueue) : Nat := qp.toss

/-- Structural well-formedness of a queue state: cursors in range and the
write cursor sitting `count` slots (cyclically) after the read cursor. -/
def Cqueue.Wf (q : Cqueue) : Prop :=
  0 < q.size ∧ q.buf.length = q.size ∧ q.ip < q.size ∧ q.op < q.size ∧
    q.count ≤ q.size ∧ q.ip = (q.op + q.count) % q.size

instance (q : Cqueue) : Decidable q.Wf :=
  inferInstanceAs (Decidable (_ ∧ _ ∧ _ ∧ _ ∧ _ ∧ _))

/-- The unread bytes of the queue, oldest first. -/
def Cqueue.toList (q : Cqueue) : List Nat :=
  (List.range q.count).map (fun i => q.buf.getD ((q.op + i) % q.size) 0)

theorem wrap_eq {i n : Nat} (h : i < n) :
    (if n ≤ i + 1 then 0 else i + 1) = (i + 1) % n := by
  rcases Nat.lt_or_ge (i + 1) n with h1 | h1
  · rw [if_neg (by omega), Nat.mod_eq_of_lt h1]
  · have h2 : i + 1 = n := by omega
    rw [if_pos (by omega), h2, Nat.mod_self]

theorem wf_init {C : Nat} (h : 0 < C) : (cq_init C).Wf := by
  refine ⟨h, ?_, h, h, ?_, ?_⟩ <;> simp [cq_init]

theorem toList_init (C : Nat) : (cq_init C).toList = [] := by
  simp [cq_init, Cqueue.toList]

theorem cq_add_full {q : Cqueue} (h : ¬ q.count < q.size) (ch : Nat) :
    cq_add q ch = { q with toss := q.toss + 1 } := by
  simp [cq_add, h]

theorem wf_add {q : Cqueue} (hw : q.Wf) (ch : Nat) : (cq_add q ch).Wf := by
  obtain ⟨h0, hb, hip, hop, hc, he⟩ := hw
  by_cases h : q.count < q.size
  · simp only [cq_add, if_pos h, Cqueue.Wf, List.length_set]
    refine ⟨h0, hb, ?_, hop, by omega, ?_⟩
    · split <;> omega
    · rw [wrap_eq hip, he, Nat.mod_add_mod, Nat.add_assoc]
  · rw [cq_add_full h]
    exact ⟨h0, hb, hip, hop, hc, he⟩

theorem wf_remove {q : Cqueue} (hw : q.Wf) : (cq_remove q).snd.Wf := by
  obtain ⟨h0, hb, hip, hop, hc, he⟩ := hw
  by_cases h : q.count < 1
  · simpa [cq_remove, h] using ⟨h0, hb, hip, hop, hc, he⟩
  · simp only [cq_remove, if_neg h, Cqueue.Wf]
    refine ⟨h0, hb, hip, ?_, by omega, ?_⟩
    · rw [wrap_eq hop]
      exact Nat.mod_lt _ h0
    · rw [wrap_eq hop, Nat.mod_add_mod, he]
      congr 1
      omega

theorem getD_set_self {l : List Nat} {i v : Nat} (h : i < l.length) :
    (l.set i v).getD i 0 = v := by
  rw [List.getD_eq_getElem?_getD, List.getElem?_set_eq_of_lt v h]
  rfl

theorem getD_set_ne {l : List Nat} {i j v : Nat} (h : i ≠ j) :
    (l.set i v).getD j 0 = l.getD j 0 := by
  rw [List.getD_eq_getElem?_getD, List.getElem?_set_ne h,
    ← List.getD_eq_getElem?_getD]

theorem mod_ne_of_lt {a i c n : Nat} (hi : i < c) (hc : c < n) :
    (a + i) % n ≠ (a + c) % n := by
  intro hmod
  have hdvd : n ∣ (a + c) - (a + i) :=
    (Nat.modEq_iff_dvd' (by omega)).mp hmod
  have := Nat.le_of_dvd (by omega) hdvd
  omega

theorem toList_add {q : Cqueue} (hw : q.Wf) (h : q.count < q.size) (ch : Nat) :
    (cq_add q ch).toList = q.toList ++ [ch % 256] := by
  obtain ⟨h0, hb, hip, hop, hc, he⟩ := hw
  simp only [cq_add, if_pos h, Cqueue.toList]
  rw [List.range_succ, List.map_append]
  congr 1
  · apply List.map_congr_left
    intro i hi
    rw [List.mem_range] at hi
    exact getD_set_ne (by rw [he]; exact (mod_ne_of_lt hi h).symm)
  · simp only [List.map_cons, List.map_nil]
    congr 1
    rw [← he, getD_set_self (by omega)]

theorem remove_eq {q : Cqueue} (h : 0 < q.count) :
    (cq_remove q).fst = Int.ofNat (q.buf.getD q.op 0) := by
  simp [cq_remove, Nat.not_lt.mpr h, Nat.lt_irrefl]

theorem toList_cons {q : Cqueue} (hw : q.Wf) (h : 0 < q.count) :
    q.toList = q.buf.getD q.op 0 :: (cq_remove q).snd.toList := by
  obtain ⟨h0, hb, hip, hop, hc, he⟩ := hw
  simp only [cq_remove, if_neg (by omega : ¬ q.count < 1), Cqueue.toList]
  obtain ⟨c, hcount⟩ : ∃ c, q.count = c + 1 := ⟨q.count - 1, by omega⟩
  rw [hcount, List.range_succ_eq_map, List.map_cons]
  congr 1
  · rw [Nat.add_zero, Nat.mod_eq_of_lt hop]
  · rw [List.map_map]
    apply List.map_congr_left
    intro i hi
    simp only [Function.comp]
    rw [wrap_eq hop, Nat.mod_add_mod]
    congr 2
    omega

/-- Pushing a whole byte list, in order (repeated `cq_add`). -/
def pushAll (q : Cqueue) (bs : List Nat) : Cqueue := bs.foldl cq_add q

/-- Popping `n` times (repeated `cq_remove`), collecting the returned values. -/
def popN (q : Cqueue) : Nat → List Int × Cqueue
  | 0 => ([], q)
  | n + 1 =>
    ((cq_remove q).fst :: (popN (cq_remove q).snd n).fst,
     (popN (cq_remove q).snd n).snd)

theorem remove_count {q : Cqueue} (h : 0 < q.count) :
    (cq_remove q).snd.count = q.count - 1 ∧ (cq_remove q).snd.toss = q.toss ∧
      (cq_remove q).snd.size = q.size := by
  simp [cq_remove, Nat.not_lt.mpr h, Nat.lt_irrefl]

theorem pushAll_spec (bs : List Nat) (q : Cqueue) (hw : q.Wf) :
    (pushAll q bs).Wf ∧
    (pushAll q bs).size = q.size ∧
    (pushAll q bs).toList
      = q.toList ++ (bs.take (q.size - q.count)).map (fun b => b % 256) ∧
    (pushAll q bs).count = min (q.count + bs.length) q.size ∧
    (pushAll q bs).toss = q.toss + (bs.length - (q.size - q.count)) := by
  induction bs generalizing q with
  | nil =>
    obtain ⟨h0, hb, hip, hop, hc, he⟩ := hw
    refine ⟨⟨h0, hb, hip, hop, hc, he⟩, rfl, by simp [pushAll], ?_, ?_⟩ <;>
      simp [pushAll] <;> omega
  | cons b bs ih =>
    have hstep : pushAll q (b :: bs) = pushAll (cq_add q b) bs := rfl
    by_cases h : q.count < q.size
    · obtain ⟨ihw, ihsz, ihl, ihc, iht⟩ := ih (cq_add q b) (wf_add hw b)
      have hsz : (cq_add q b).size = q.size := by simp [cq_add, h]
      have hct : (cq_add q b).count = q.count + 1 := by simp [cq_add, h]
      have hts : (cq_add q b).toss = q.toss := by simp [cq_add, h]
      have htk : q.size - q.count = (q.size - (q.count + 1)) + 1 := by omega
      refine ⟨ihw, by rw [hstep, ihsz, hsz], ?_, ?_, ?_⟩
      · rw [hstep, ihl, toList_add hw h, hsz, hct, htk, List.take_succ_cons,
          List.map_cons, List.append_assoc, List.singleton_append]
      · rw [hstep, ihc, hsz, hct, List.length_cons]
        omega
      · rw [hstep, iht, hsz, hct, hts, List.length_cons]
        omega
    · have hc : q.count ≤ q.size := hw.2.2.2.2.1
      have hfull : q.count = q.size := by omega
      have hq1 : cq_add q b = { q with toss := q.toss + 1 } := cq_add_full h b
      have hw1 : (cq_add q b).Wf := wf_add hw b
      obtain ⟨ihw, ihsz, ihl, ihc, iht⟩ := ih (cq_add q b) hw1
      have htl : (cq_add q b).toList = q.toList := by rw [hq1]; rfl
      refine ⟨ihw, by rw [hstep, ihsz, hq1], ?_, ?_, ?_⟩
      · rw [hstep, ihl, htl, hq1]
        simp [hfull]
      · rw [hstep, ihc, hq1, List.length_cons]
        simp only
        omega
      · rw [hstep, iht, hq1, List.length_cons]
        simp only
        omega

theorem popN_spec (n : Nat) (q : Cqueue) (hw : q.Wf) (h : n ≤ q.count) :
    (popN q n).fst = (q.toList.take n).map Int.ofNat ∧
    (popN q n).snd.toList = q.toList.drop n ∧
    (popN q n).snd.Wf ∧
    (popN q n).snd.count = q.count - n ∧
    (popN q n).snd.toss = q.toss := by
  induction n generalizing q with
  | zero => exact ⟨by simp [popN], by simp [popN], hw, by simp [popN], by simp [popN]⟩
  | succ n ih =>
    have hpos : 0 < q.count := by omega
    obtain ⟨ihf, ihl, ihw, ihc, iht⟩ := ih (cq_remove q).snd (wf_remove hw)
      (by obtain ⟨hc1, -, -⟩ := remove_count hpos; omega)
    obtain ⟨hc1, ht1, -⟩ := remove_count hpos
    have hcons := toList_cons hw hpos
    refine ⟨?_, ?_, ihw, by rw [show (popN q (n+1)).snd = (popN (cq_remove q).snd n).snd from rfl, ihc, hc1]; omega,
      by rw [show (popN q (n+1)).snd = (popN (cq_remove q).snd n).snd from rfl, iht, ht1]⟩
    · show (cq_remove q).fst :: (popN (cq_remove q).snd n).fst = _
      rw [ihf, remove_eq hpos, hcons, List.take_succ_cons, List.map_cons]
    · show (popN (cq_remove q).snd n).snd.toList = _
      rw [ihl, hcons, List.drop_succ_cons]

/-- One queue operation of the producer/consumer interface: a producer
`cq_add` of one byte, or a consumer `cq_remove`. -/
inductive QOp where
  | push : Nat → QOp
  | pop : QOp
deriving DecidableEq

/-- Apply one queue operation. -/
def qstep (q : Cqueue) : QOp → Cqueue
  | QOp.push b => cq_add q b
  | QOp.pop => (cq_remove q).snd

/-- Run a sequence of queue operations. -/
def runOps (q : Cqueue) (ops : List QOp) : Cqueue := ops.foldl qstep q

/-- Number of pushes in a trace. -/
def pushCount : List QOp → Nat
  | [] => 0
  | QOp.push _ :: ops => pushCount ops + 1
  | QOp.pop :: ops => pushCount ops

/-- Number of successful pops (pops hitting a non-empty queue) in a trace run
from state `q`. -/
def succPopCount (q : Cqueue) : List QOp → Nat
  | [] => 0
  | QOp.push b :: ops => succPopCount (cq_add q b) ops
  | QOp.pop :: ops =>
    (if 1 ≤ q.count then 1 else 0) + succPopCount (cq_remove q).snd ops

theorem runOps_spec (ops : List QOp) (q : Cqueue) (h : q.count ≤ q.size) :
    (runOps q ops).size = q.size ∧
    (runOps q ops).count ≤ q.size ∧
    (runOps q ops).count + succPopCount q ops + (runOps q ops).toss
      = q.count + q.toss + pushCount ops := by
  induction ops generalizing q with
  | nil => exact ⟨rfl, h, by simp [runOps, succPopCount, pushCount]⟩
  | cons o ops ih =>
    cases o with
    | push b =>
      by_cases hfull : q.count < q.size
      · have hsz : (cq_add q b).size = q.size := by simp [cq_add, hfull]
        have hct : (cq_add q b).count = q.count + 1 := by simp [cq_add, hfull]
        have hts : (cq_add q b).toss = q.toss := by simp [cq_add, hfull]
        obtain ⟨ihs, ihc, ihe⟩ := ih (cq_add q b) (by omega)
        refine ⟨?_, ?_, ?_⟩
        · show (runOps (cq_add q b) ops).size = q.size
          rw [ihs, hsz]
        · show (runOps (cq_add q b) ops).count ≤ q.size
          omega
        · show (runOps (cq_add q b) ops).count + succPopCount (cq_add q b) ops
              + (runOps (cq_add q b) ops).toss = q.count + q.toss + (pushCount ops + 1)
          omega
      · have hq1 := cq_add_full hfull b
        have hsz : (cq_add q b).size = q.size := by rw [hq1]
        have hct : (cq_add q b).count = q.count := by rw [hq1]
        have hts : (cq_add q b).toss = q.toss + 1 := by rw [hq1]
        obtain ⟨ihs, ihc, ihe⟩ := ih (cq_add q b) (by omega)
        refine ⟨?_, ?_, ?_⟩
        · show (runOps (cq_add q b) ops).size = q.size
          rw [ihs, hsz]
        · show (runOps (cq_add q b) ops).count ≤ q.size
          omega
        · show (runOps (cq_add q b) ops).count + succPopCount (cq_add q b) ops
              + (runOps (cq_add q b) ops).toss = q.count + q.toss + (pushCount ops + 1)
          omega
    | pop =>
      by_cases hemp : q.count < 1
      · have h1 : cq_remove q = (-1, q) := by simp [cq_remove, hemp]
        have hsz : (cq_remove q).snd.size = q.size := by rw [h1]
        have hct : (cq_remove q).snd.count = q.count := by rw [h1]
        have hts : (cq_remove q).snd.toss = q.toss := by rw [h1]
        obtain ⟨ihs, ihc, ihe⟩ := ih (cq_remove q).snd (by omega)
        refine ⟨?_, ?_, ?_⟩
        · show (runOps (cq_remove q).snd ops).size = q.size
          rw [ihs, hsz]
        · show (runOps (cq_remove q).snd ops).count ≤ q.size
          omega
        · show (runOps (cq_remove q).snd ops).count
              + ((if 1 ≤ q.count then 1 else 0) + succPopCount (cq_remove q).snd ops)
              + (runOps (cq_remove q).snd ops).toss = q.count + q.toss + pushCount ops
          rw [if_neg (by omega)]
          omega
      · obtain ⟨hct, hts, hsz⟩ := remove_count (by omega : 0 < q.count)
        obtain ⟨ihs, ihc, ihe⟩ := ih (cq_remove q).snd (by omega)
        refine ⟨?_, ?_, ?_⟩
        · show (runOps (cq_remove q).snd ops).size = q.size
          rw [ihs, hsz]
        · show (runOps (cq_remove q).snd ops).count ≤ q.size
          omega
        · show (runOps (cq_remove q).snd ops).count
              + ((if 1 ≤ q.count then 1 else 0) + succPopCount (cq_remove q).snd ops)
              + (runOps (cq_remove q).snd ops).toss = q.count + q.toss + pushCount ops
          rw [if_pos (by omega)]
          omega

/-- The endpoint-1 receive-complete loop body of `data_ctr` (usb.c): each
received byte is offered to the queue, but only when `cq_space` reports room
(`if (cq_space(&in_queue) > 0) cq_add(&in_queue, inbuf[i]);`). -/
def dataCtrRx (q : Cqueue) (pkt : List Nat) : Cqueue :=
  pkt.foldl (fun qp ch => if 0 < cq_space qp then cq_add qp ch else qp) q

theorem dataCtrRx_spec (pkt : List Nat) (q : Cqueue) (hw : q.Wf) :
    (dataCtrRx q pkt).Wf ∧
    (dataCtrRx q pkt).size = q.size ∧
    (dataCtrRx q pkt).toList
      = q.toList ++ (pkt.take (q.size - q.count)).map (fun b => b % 256) ∧
    (dataCtrRx q pkt).count = min (q.count + pkt.length) q.size ∧
    (dataCtrRx q pkt).toss = q.toss := by
  induction pkt generalizing q with
  | nil =>
    have hc : q.count ≤ q.size := hw.2.2.2.2.1
    refine ⟨hw, rfl, by simp [dataCtrRx], ?_, rfl⟩
    show q.count = min (q.count + 0) q.size
    omega
  | cons b pkt ih =>
    by_cases h : q.count < q.size
    · have hsp : 0 < cq_space q := by simp only [cq_space]; omega
      have hstep : dataCtrRx q (b :: pkt) = dataCtrRx (cq_add q b) pkt := by
        simp [dataCtrRx, hsp]
      have hsz : (cq_add q b).size = q.size := by simp [cq_add, h]
      have hct : (cq_add q b).count = q.count + 1 := by simp [cq_add, h]
      have hts : (cq_add q b).toss = q.toss := by simp [cq_add, h]
      have htk : q.size - q.count = (q.size - (q.count + 1)) + 1 := by omega
      obtain ⟨ihw, ihsz, ihl, ihc, iht⟩ := ih (cq_add q b) (wf_add hw b)
      rw [hstep]
      refine ⟨ihw, by rw [ihsz, hsz], ?_, ?_, ?_⟩
      · rw [ihl, toList_add hw h, hsz, hct, htk, List.take_succ_cons,
          List.map_cons, List.append_assoc, List.singleton_append]
      · rw [ihc, hsz, hct, List.length_cons]
        omega
      · rw [iht, hts]
    · have hc : q.count ≤ q.size := hw.2.2.2.2.1
      have hsp : ¬ 0 < cq_space q := by simp only [cq_space]; omega
      have hstep : dataCtrRx q (b :: pkt) = dataCtrRx q pkt := by
        simp [dataCtrRx, hsp]
      obtain ⟨ihw, ihsz, ihl, ihc, iht⟩ := ih q hw
      rw [hstep]
      refine ⟨ihw, ihsz, ?_, ?_, iht⟩
      · rw [ihl]
        have h0 : q.size - q.count = 0 := by omega
        rw [h0]
        rfl
      · rw [ihc, List.length_cons]
        omega

/-! ## Endpoint status register discipline (src/driver/usb.c)

Each endpoint has one hardware register `USB->EPR[ep]`.  Its STAT and DTOG
bits are write-one-to-toggle, its CTR bits are write-zero-to-clear, the SETUP
bit is read-only, and EP_TYPE / EP_KIND / EA are plain read-write.  The
driver's status-changing helpers are read-modify-write sequences; here each
is split into its pure current-value-to-written-value function, composed with
the hardware write semantics `epr_apply`. -/

def USB_EP0R_CTR_RX : Nat := 0x8000
def USB_EP0R_DTOG_RX : Nat := 0x4000
def USB_EP0R_STAT_RX : Nat := 0x3000
def USB_EP0R_CTR_TX : Nat := 0x0080
def USB_EP0R_DTOG_TX : Nat := 0x0040
def USB_EP0R_STAT_TX : Nat := 0x0030
def USB_EP0R_STAT_TX_0 : Nat := 0x0010
def USB_EP0R_STAT_TX_1 : Nat := 0x0020

def EP_TOGGLE_TX : Nat := USB_EP0R_DTOG_RX ||| USB_EP0R_DTOG_TX ||| USB_EP0R_STAT_RX
def EP_TOGGLE_RX : Nat := USB_EP0R_DTOG_RX ||| USB_EP0R_DTOG_TX ||| USB_EP0R_STAT_TX
def EP_TOGGLE_ALL : Nat :=
  USB_EP0R_DTOG_RX ||| USB_EP0R_DTOG_TX ||| USB_EP0R_STAT_TX ||| USB_EP0R_STAT_RX

/-- C `val & ~mask` on the 32-bit working value. -/
def maskOut (x m : Nat) : Nat := x &&& (0xffffffff ^^^ m)

/-- Hardware semantics of one write to EPnR: toggle bits (DTOG, STAT) are
XORed with the written value, CTR bits are ANDed (write 0 clears, write 1
keeps), SETUP (bit 11) is read-only, and EP_TYPE/EP_KIND/EA (bits 10:8, 3:0)
take the written value. -/
def epr_apply (old w : Nat) : Nat :=
  (old &&& w &&& 0x8080) ||| ((old ^^^ w) &&& 0x7070) |||
    (old &&& 0x0800) ||| (w &&& 0x070f)

/-- `endpoint_set_rx_ready`: the value written to the register, as a pure
function of the value just read. -/
def endpoint_set_rx_ready_write (val : Nat) : Nat :=
  ((maskOut val USB_EP0R_CTR_RX ||| USB_EP0R_CTR_TX)
    |> (maskOut · EP_TOGGLE_RX)) ^^^ USB_EP0R_STAT_RX

/-- `endpoint_clear_rx`: written value as a function of the value read. -/
def endpoint_clear_rx_write (val : Nat) : Nat :=
  maskOut (maskOut val USB_EP0R_CTR_RX) EP_TOGGLE_ALL

/-- `endpoint_clear_tx`: written value as a function of the value read. -/
def endpoint_clear_tx_write (val : Nat) : Nat :=
  maskOut (maskOut val USB_EP0R_CTR_TX ||| USB_EP0R_CTR_RX) EP_TOGGLE_ALL

/-- `endpoint_stall`: written value as a function of the value read.  The
first line transcribes the C `val &= ~USB_EP0R_CTR_RX | USB_EP0R_CTR_TX;`
with C operator precedence (`~` binds tighter than `|`). -/
def endpoint_stall_write (val : Nat) : Nat :=
  ((val &&& ((0xffffffff ^^^ USB_EP0R_CTR_RX) ||| USB_EP0R_CTR_TX))
    |> (maskOut · EP_TOGGLE_RX)) ^^^ USB_EP0R_STAT_TX_0

/-- `endpoint_set_tx_valid`: written value as a function of the value read. -/
def endpoint_set_tx_valid_write (val : Nat) : Nat :=
  ((maskOut val USB_EP0R_CTR_TX ||| USB_EP0R_CTR_RX)
    |> (maskOut · EP_TOGGLE_TX)) ^^^ USB_EP0R_STAT_TX

/-- `endpoint_set_tx_nak`: written value as a function of the value read. -/
def endpoint_set_tx_nak_write (val : Nat) : Nat :=
  ((maskOut val USB_EP0R_CTR_TX ||| USB_EP0R_CTR_RX)
    |> (maskOut · EP_TOGGLE_TX)) ^^^ USB_EP0R_STAT_TX_1

/-- The register value after one read-modify-write helper runs. -/
def ep_step (writeFn : Nat → Nat) (cur : Nat) : Nat := epr_apply cur (writeFn cur)

/-- The 2-bit TX status field (bits 5:4): 0 DISABLED, 1 STALL, 2 NAK, 3 VALID. -/
def ep_stat_tx (v : Nat) : Nat := (v >>> 4) &&& 3

/-- The 2-bit RX status field (bits 13:12). -/
def ep_stat_rx (v : Nat) : Nat := (v >>> 12) &&& 3

theorem field2_eq {u : Nat} {b0 b1 : Bool} (h0 : u.testBit 0 = b0)
    (h1 : u.testBit 1 = b1) : u &&& 3 = 2 * b1.toNat + b0.toNat := by
  apply Nat.eq_of_testBit_eq
  intro i
  rw [Nat.testBit_and]
  match i with
  | 0 =>
    rw [h0]
    cases b0 <;> cases b1 <;> decide
  | 1 =>
    rw [h1]
    cases b0 <;> cases b1 <;> decide
  | (i + 2) =>
    have hlt : (4 : Nat) ≤ 2 ^ (i + 2) := by
      calc (4 : Nat) = 2 ^ 2 := by norm_num
      _ ≤ 2 ^ (i + 2) := Nat.pow_le_pow_right (by norm_num) (by omega)
    have hval : 2 * b1.toNat + b0.toNat < 2 ^ (i + 2) := by
      have hb : 2 * b1.toNat + b0.toNat ≤ 3 := by cases b0 <;> cases b1 <;> decide
      omega
    rw [Nat.testBit_lt_two_pow (by omega : (3 : Nat) < 2 ^ (i + 2)),
      Bool.and_false, Nat.testBit_lt_two_pow hval]

theorem ep_stat_tx_eq {v : Nat} {b4 b5 : Bool} (h4 : v.testBit 4 = b4)
    (h5 : v.testBit 5 = b5) : ep_stat_tx v = 2 * b5.toNat + b4.toNat := by
  unfold ep_stat_tx
  exact field2_eq (by rw [Nat.testBit_shiftRight]; exact h4)
    (by rw [Nat.testBit_shiftRight]; exact h5)

theorem ep_stat_rx_eq {v : Nat} {b12 b13 : Bool} (h12 : v.testBit 12 = b12)
    (h13 : v.testBit 13 = b13) : ep_stat_rx v = 2 * b13.toNat + b12.toNat := by
  unfold ep_stat_rx
  exact field2_eq (by rw [Nat.testBit_shiftRight]; exact h12)
    (by rw [Nat.testBit_shiftRight]; exact h13)

theorem tx_valid_bits (cur : Nat) :
    (ep_step endpoint_set_tx_valid_write cur).testBit 4 = true ∧
    (ep_step endpoint_set_tx_valid_write cur).testBit 5 = true := by
  constructor
  · simp only [ep_step, epr_apply, endpoint_set_tx_valid_write, maskOut,
      USB_EP0R_CTR_RX, USB_EP0R_CTR_TX, USB_EP0R_STAT_TX, EP_TOGGLE_TX,
      USB_EP0R_DTOG_RX, USB_EP0R_DTOG_TX, USB_EP0R_STAT_RX,
      Nat.testBit_or, Nat.testBit_and, Nat.testBit_xor]
    cases h : cur.testBit 4 <;> simp [h] <;> decide
  · simp only [ep_step, epr_apply, endpoint_set_tx_valid_write, maskOut,
      USB_EP0R_CTR_RX, USB_EP0R_CTR_TX, USB_EP0R_STAT_TX, EP_TOGGLE_TX,
      USB_EP0R_DTOG_RX, USB_EP0R_DTOG_TX, USB_EP0R_STAT_RX,
      Nat.testBit_or, Nat.testBit_and, Nat.testBit_xor]
    cases h : cur.testBit 5 <;> simp [h] <;> decide

theorem tx_nak_bits (cur : Nat) :
    (ep_step endpoint_set_tx_nak_write cur).testBit 4 = false ∧
    (ep_step endpoint_set_tx_nak_write cur).testBit 5 = true := by
  constructor
  · simp only [ep_step, epr_apply, endpoint_set_tx_nak_write, maskOut,
      USB_EP0R_CTR_RX, USB_EP0R_CTR_TX, USB_EP0R_STAT_TX_1, EP_TOGGLE_TX,
      USB_EP0R_DTOG_RX, USB_EP0R_DTOG_TX, USB_EP0R_STAT_RX,
      Nat.testBit_or, Nat.testBit_and, Nat.testBit_xor]
    cases h : cur.testBit 4 <;> simp [h] <;> decide
  · simp only [ep_step, epr_apply, endpoint_set_tx_nak_write, maskOut,
      USB_EP0R_CTR_RX, USB_EP0R_CTR_TX, USB_EP0R_STAT_TX_1, EP_TOGGLE_TX,
      USB_EP0R_DTOG_RX, USB_EP0R_DTOG_TX, USB_EP0R_STAT_RX,
      Nat.testBit_or, Nat.testBit_and, Nat.testBit_xor]
    cases h : cur.testBit 5 <;> simp [h] <;> decide

theorem rx_ready_bits (cur : Nat) :
    (ep_step endpoint_set_rx_ready_write cur).testBit 12 = true ∧
    (ep_step endpoint_set_rx_ready_write cur).testBit 13 = true := by
  constructor
  · simp only [ep_step, epr_apply, endpoint_set_rx_ready_write, maskOut,
      USB_EP0R_CTR_RX, USB_EP0R_CTR_TX, USB_EP0R_STAT_TX, EP_TOGGLE_RX,
      USB_EP0R_DTOG_RX, USB_EP0R_DTOG_TX, USB_EP0R_STAT_RX,
      Nat.testBit_or, Nat.testBit_and, Nat.testBit_xor]
    cases h : cur.testBit 12 <;> simp [h] <;> decide
  · simp only [ep_step, epr_apply, endpoint_set_rx_ready_write, maskOut,
      USB_EP0R_CTR_RX, USB_EP0R_CTR_TX, USB_EP0R_STAT_TX, EP_TOGGLE_RX,
      USB_EP0R_DTOG_RX, USB_EP0R_DTOG_TX, USB_EP0R_STAT_RX,
      Nat.testBit_or, Nat.testBit_and, Nat.testBit_xor]
    cases h : cur.testBit 13 <;> simp [h] <;> decide

theorem stall_bits (cur : Nat) :
    (ep_step endpoint_stall_write cur).testBit 4 = !cur.testBit 4 ∧
    (ep_step endpoint_stall_write cur).testBit 5 = cur.testBit 5 := by
  constructor
  · simp only [ep_step, epr_apply, endpoint_stall_write, maskOut,
      USB_EP0R_CTR_RX, USB_EP0R_CTR_TX, USB_EP0R_STAT_TX_0, EP_TOGGLE_RX,
      USB_EP0R_DTOG_RX, USB_EP0R_DTOG_TX, USB_EP0R_STAT_TX,
      Nat.testBit_or, Nat.testBit_and, Nat.testBit_xor]
    cases h : cur.testBit 4 <;> simp [h] <;> decide
  · simp only [ep_step, epr_apply, endpoint_stall_write, maskOut,
      USB_EP0R_CTR_RX, USB_EP0R_CTR_TX, USB_EP0R_STAT_TX_0, EP_TOGGLE_RX,
      USB_EP0R_DTOG_RX, USB_EP0R_DTOG_TX, USB_EP0R_STAT_TX,
      Nat.testBit_or, Nat.testBit_and, Nat.testBit_xor]
    cases h : cur.testBit 5 <;> simp [h] <;> decide

/-- `endpoint_set_tx_valid` leaves TX status at VALID for every starting
register value: the read value's STAT_TX field is kept in the written word
and XORed with `0b11`, so the hardware toggle lands exactly on the target. -/
theorem endpoint_set_tx_valid_forces_valid (cur : Nat) :
    ep_stat_tx (ep_step endpoint_set_tx_valid_write cur) = 3 := by
  rw [ep_stat_tx_eq (tx_valid_bits cur).1 (tx_valid_bits cur).2]
  decide

/-- `endpoint_set_tx_nak` leaves TX status at NAK for every starting value. -/
theorem endpoint_set_tx_nak_forces_nak (cur : Nat) :
    ep_stat_tx (ep_step endpoint_set_tx_nak_write cur) = 2 := by
  rw [ep_stat_tx_eq (tx_nak_bits cur).1 (tx_nak_bits cur).2]
  decide

/-- `endpoint_set_rx_ready` leaves RX status at VALID for every starting
value. -/
theorem endpoint_set_rx_ready_forces_valid (cur : Nat) :
    ep_stat_rx (ep_step endpoint_set_rx_ready_write cur) = 3 := by
  rw [ep_stat_rx_eq (rx_ready_bits cur).1 (rx_ready_bits cur).2]
  decide

/-- `endpoint_stall` does NOT force TX status to STALL: its mask clears the
current STAT_TX bits from the written word (it uses `EP_TOGGLE_RX`, the
RX-side preserve mask), so the write XORs the constant `0b01` into the
current field instead of `current XOR target`. -/
theorem endpoint_stall_toggles_low_bit (cur : Nat) :
    ep_stat_tx (ep_step endpoint_stall_write cur) = ep_stat_tx cur ^^^ 1 := by
  rw [ep_stat_tx_eq (stall_bits cur).1 (stall_bits cur).2, ep_stat_tx_eq rfl rfl]
  cases h4 : cur.testBit 4 <;> cases h5 : cur.testBit 5 <;> decide

/-! ## Device model (src/driver/usb.c and src/driver/usb_enum.c)

State visible to the claims: the enumeration state, the emulated UART state,
the deferred device address, the DADDR register, the per-endpoint soft flags
(`ep_info[i].flags`), the oversized-send remainder (`tx_rem`/`tx_rem_count`,
modelled as the byte list it points at), the armed control-data consumer and
its two capture buffers, and the prompt-pending flag.  Each completed
transfer arming (write of the payload into packet memory, of its length into
`btable.tx_count`, and `endpoint_set_tx_valid`) is modelled by appending
`(endpoint, payload)` to the `sends` log; a zero-length status packet is an
entry with an empty payload. -/

inductive UsbState where
  | BOOT
  | INIT
  | CONFIGURED
deriving DecidableEq

inductive UartState where
  | DISABLED
  | ENABLED
deriving DecidableEq

inductive Cp21Control where
  | NONE
  | BAUD
  | CHARS
deriving DecidableEq

def F_RX_BUSY : Nat := 0x01
def F_TX_BUSY : Nat := 0x02
def F_TX_REM : Nat := 0x80

structure DevState where
  usb_current_state : UsbState
  uart_current_state : UartState
  pending_address : Nat
  daddr : Nat
  flags : List Nat
  tx_rem : List Nat
  usb_inital_prompt_pending : Nat
  cp21_control : Cp21Control
  cp21_baud : List Nat
  cp21_chars : List Nat
  sends : List (Nat × List Nat)
deriving DecidableEq

/-- The global state at boot: `usb_current_state = BOOT`,
`uart_current_state = DISABLED`, all counters and buffers zeroed (bss). -/
def initialDevState : DevState :=
  { usb_current_state := UsbState.BOOT,
    uart_current_state := UartState.DISABLED,
    pending_address := 0,
    daddr := 0,
    flags := List.replicate 8 0,
    tx_rem := [],
    usb_inital_prompt_pending := 0,
    cp21_control := Cp21Control.NONE,
    cp21_baud := [0, 0, 0, 0],
    cp21_chars := [0, 0, 0, 0, 0, 0],
    sends := [] }

def getFlags (s : DevState) (ep : Nat) : Nat := s.flags.getD ep 0

def setFlags (s : DevState) (ep v : Nat) : DevState :=
  { s with flags := s.flags.set ep v }

/-- `usb_endpoint_send(ep, buf, count)` (usb.c): a payload within
`ENDPOINT_LIMIT` (64) bytes is armed whole; a larger one is split, arming the
first 64 bytes now, recording the remainder in `tx_rem`/`tx_rem_count` and
setting `F_TX_REM` on the endpoint. -/
def usb_endpoint_send (s : DevState) (ep : Nat) (buf : List Nat) : DevState :=
  if buf.length ≤ 64 then
    { s with sends := s.sends ++ [(ep, buf)] }
  else
    { s with tx_rem := buf.drop 64,
             flags := s.flags.set ep (getFlags s ep ||| F_TX_REM),
             sends := s.sends ++ [(ep, buf.take 64)] }

/-- `usb_endpoint_send_zlp(ep)` (usb.c): arm a zero-length packet. -/
def usb_endpoint_send_zlp (s : DevState) (ep : Nat) : DevState :=
  { s with sends := s.sends ++ [(ep, [])] }

/-- `endpoint_rem(ep)` (usb.c): transmit the recorded remainder and clear
`F_TX_REM`. -/
def endpoint_rem (s : DevState) (ep : Nat) : DevState :=
  { s with sends := s.sends ++ [(ep, s.tx_rem)],
           flags := s.flags.set ep (getFlags s ep &&& (0xff ^^^ F_TX_REM)) }

/-- `set_address(addr)` (usb.c): `USB->DADDR = USB_DADDR_EF | (addr & 0x7f)`. -/
def hw_set_address (s : DevState) (addr : Nat) : DevState :=
  { s with daddr := 0x80 ||| (addr &&& 0x7f) }

/-- `usb_pend_address(addr)` (usb.c). -/
def usb_pend_address (s : DevState) (addr : Nat) : DevState :=
  { s with pending_address := addr }

/-- The endpoint-0 transmit-complete branch of `ctr0` (usb.c): after clearing
the CTR_TX flag, a pending address change is applied and cleared (and the
handler returns); otherwise a pending oversized-send remainder is drained;
otherwise `F_TX_BUSY` is cleared. -/
def ctr0_tx (s : DevState) : DevState :=
  if s.pending_address ≠ 0 then
    { (hw_set_address s s.pending_address) with pending_address := 0 }
  else if getFlags s 0 &&& F_TX_REM ≠ 0 then
    endpoint_rem s 0
  else
    setFlags s 0 (getFlags s 0 &&& (0xff ^^^ F_TX_BUSY))

/-- The transmit-complete branch of `data_ctr` (usb.c) for a data endpoint:
it clears CTR_TX and `F_TX_BUSY` and returns; it never looks at `F_TX_REM`. -/
def data_ctr_tx (s : DevState) (ep : Nat) : DevState :=
  setFlags s ep (getFlags s ep &&& (0xff ^^^ F_TX_BUSY))

/-- `endpoint_init` (usb.c), restricted to the modelled state: both
endpoints' soft flags are cleared (register and btable setup is hardware
state outside `DevState`). -/
def endpoint_init_dev (s : DevState) : DevState :=
  { s with flags := (s.flags.set 0 0).set 1 0 }

/-- `reset()` (usb.c): `endpoint_init(); set_address(0);` — note that it does
not write `usb_current_state`. -/
def usb_reset (s : DevState) : DevState :=
  hw_set_address (endpoint_init_dev s) 0

/-- `usb_init()` (usb.c) up to the end of its hardware setup: `hw_init()`
(which runs `endpoint_init` and `set_address(0)`), then `reset()`, then
`usb_current_state = INIT`. -/
def usb_init_dev (s : DevState) : DevState :=
  { (usb_reset (usb_reset s)) with usb_current_state := UsbState.INIT }

/-- `endpoint_send(ep, buf, count)` (usb.c): refused unless the device is
CONFIGURED and the emulated UART is ENABLED; otherwise it busy-waits for
`F_TX_BUSY` to clear (modelled as `none`, since only a later interrupt can
clear it), then sets `F_TX_BUSY` and arms the transfer. -/
def endpoint_send (s : DevState) (ep : Nat) (buf : List Nat) : Option DevState :=
  if s.usb_current_state ≠ UsbState.CONFIGURED then some s
  else if s.uart_current_state ≠ UartState.ENABLED then some s
  else if getFlags s ep &&& F_TX_BUSY ≠ 0 then none
  else some (usb_endpoint_send (setFlags s ep (getFlags s ep ||| F_TX_BUSY)) ep buf)

/-! ## Enumeration and CP2102 vendor protocol (src/driver/usb_enum.c) -/

/-- `struct setup`: the 8-byte SETUP header as parsed by `usb_setup`. -/
structure Setup where
  rtype : Nat
  request : Nat
  value : Nat
  index : Nat
  length : Nat
deriving DecidableEq

/-- `my_device_desc` (18 bytes). -/
def my_device_desc : List Nat :=
  [0x12, 1, 0x00, 0x02, 0x00, 0x00, 0x00, 0x40,
   0xc4, 0x10, 0x60, 0xea, 0x00, 0x01, 1, 2, 3, 1]

/-- `my_config_desc` (9 + 9 + 7 + 7 = 32 bytes). -/
def my_config_desc : List Nat :=
  [0x09, 2, 0x20, 0x00, 0x01, 0x01, 0x00, 0xC0, 0x32,
   0x09, 4, 0x00, 0x00, 2, 0xff, 0x00, 0x00, 0x02,
   0x07, 5, 0x81, 2, 64, 0x00, 0x00,
   0x07, 5, 0x01, 2, 64, 0x00, 0x00]

/-- `my_language_string_desc`. -/
def my_language_string_desc : List Nat := [4, 3, 0x09, 0x04]

/-- `my_strings`: index 0 is a placeholder (index 0 is answered by the
language table before the array is consulted). -/
def my_strings : List (List Nat) :=
  ["---".toList.map Char.toNat,
   "ACME computers".toList.map Char.toNat,
   "Basic console port".toList.map Char.toNat,
   "1234".toList.map Char.toNat]

/-- `string_send(index)` (usb_enum.c), as the byte message it arms on
endpoint 0: index 0 yields the language table; an index outside 1..3 or a
string longer than 31 characters is fatal (`none`); otherwise the message is
the 2-byte header (length `2 + 2 * strlen`, type 3) followed by each ASCII
character widened to a 16-bit little-endian code unit with zero high byte. -/
def string_send (index : Nat) : Option (List Nat) :=
  if index = 0 then
    some my_language_string_desc
  else if index < 1 ∨ 3 < index then
    none
  else
    let str := my_strings.getD index []
    let n := str.length
    if 31 < n then
      none
    else
      some ([2 + 2 * n, 3] ++ str.flatMap (fun c => [c, 0]))

/-- `get_descriptor(sp)` (usb_enum.c).  Descriptor type is the high byte of
`wValue`, string index its low byte.  Configuration reads are clamped to the
host-requested length.  An unknown type is ignored (no transfer armed). -/
def get_descriptor (s : DevState) (sp : Setup) : Option DevState :=
  if sp.value >>> 8 = 1 then
    some (usb_endpoint_send s 0 my_device_desc)
  else if sp.value >>> 8 = 6 then
    some (usb_endpoint_send_zlp s 0)
  else if sp.value >>> 8 = 2 then
    some (usb_endpoint_send s 0
      (my_config_desc.take
        (if my_config_desc.length > sp.length then sp.length
         else my_config_desc.length)))
  else if sp.value >>> 8 = 3 then
    match string_send (sp.value &&& 0xff) with
    | none => none
    | some msg => some (usb_endpoint_send s 0 msg)
  else
    some s

/-- `set_address(sp)` (usb_enum.c): defer the address, acknowledge with a
zero-length packet. -/
def set_address_req (s : DevState) (sp : Setup) : DevState :=
  usb_endpoint_send_zlp (usb_pend_address s sp.value) 0

/-- `set_configuration(sp)` (usb_enum.c). -/
def set_configuration_req (s : DevState) (sp : Setup) : DevState :=
  { (usb_endpoint_send_zlp s 0) with usb_current_state := UsbState.CONFIGURED }

/-- `cp21_vendor` (usb_enum.c): sends the first byte of `part_number`. -/
def cp21_vendor (s : DevState) (sp : Setup) : DevState :=
  usb_endpoint_send s 0 [2]

/-- `cp21_enable` (usb_enum.c). -/
def cp21_enable (s : DevState) (sp : Setup) : DevState :=
  if sp.value = 1 then
    usb_endpoint_send_zlp { s with uart_current_state := UartState.ENABLED } 0
  else
    usb_endpoint_send_zlp { s with uart_current_state := UartState.DISABLED } 0

/-- `cp21_set_baud` (usb_enum.c): arms the 2-byte BAUD control-data consumer. -/
def cp21_set_baud (s : DevState) (sp : Setup) : DevState :=
  usb_endpoint_send_zlp { s with cp21_control := Cp21Control.BAUD } 0

/-- `cp21_set_chars` (usb_enum.c): arms the CHARS control-data consumer. -/
def cp21_set_chars (s : DevState) (sp : Setup) : DevState :=
  usb_endpoint_send_zlp { s with cp21_control := Cp21Control.CHARS } 0

/-- `cp21_set_line` (usb_enum.c). -/
def cp21_set_line (s : DevState) (sp : Setup) : DevState :=
  usb_endpoint_send_zlp s 0

/-- `cp21_set_modem` (usb_enum.c): DTR bit set flags the initial prompt. -/
def cp21_set_modem (s : DevState) (sp : Setup) : DevState :=
  if sp.value &&& 0x01 ≠ 0 then
    usb_endpoint_send_zlp { s with usb_inital_prompt_pending := 1 } 0
  else
    usb_endpoint_send_zlp s 0

/-- `cp21_get_flow` (usb_enum.c). -/
def cp21_get_flow (s : DevState) (sp : Setup) : DevState :=
  usb_endpoint_send_zlp s 0

/-- `cp21_get_modem` (usb_enum.c): sends the first byte of `modem_status`. -/
def cp21_get_modem (s : DevState) (sp : Setup) : DevState :=
  usb_endpoint_send s 0 [0]

/-- `cp21_get_status` (usb_enum.c): sends the 2-byte dummy status. -/
def cp21_get_status (s : DevState) (sp : Setup) : DevState :=
  usb_endpoint_send s 0 [0, 0]

/-- `usb_class` (usb_enum.c): class requests are acknowledged blindly. -/
def usb_class (s : DevState) (sp : Setup) : DevState :=
  usb_endpoint_send_zlp s 0

/-- The dispatch tag `rtype << 8 | request` of `usb_setup`. -/
def usb_setup_tag (sp : Setup) : Nat := (sp.rtype <<< 8) ||| sp.request

/-- The `cp21_control = NONE;` reset `usb_setup` performs before dispatching
any non-class request. -/
def usb_setup_reset (s : DevState) : DevState :=
  { s with cp21_control := Cp21Control.NONE }

/-- `usb_setup(buf, count)` (usb_enum.c) for a parsed 8-byte SETUP header:
class requests (`rtype == 0x21`) are acknowledged without touching the
control-data consumer; for all other requests `cp21_control` is reset to
NONE before dispatching on `tag = rtype << 8 | request`.  The fatal
string-descriptor path surfaces as `none`. -/
def usb_setup (s : DevState) (sp : Setup) : Option DevState :=
  if sp.rtype = 0x21 then
    some (usb_class s sp)
  else if usb_setup_tag sp = 0x8006 then get_descriptor (usb_setup_reset s) sp
  else if usb_setup_tag sp = 0x0005 then some (set_address_req (usb_setup_reset s) sp)
  else if usb_setup_tag sp = 0x0009 then some (set_configuration_req (usb_setup_reset s) sp)
  else if usb_setup_tag sp = 0xc0ff then some (cp21_vendor (usb_setup_reset s) sp)
  else if usb_setup_tag sp = 0x4100 then some (cp21_enable (usb_setup_reset s) sp)
  else if usb_setup_tag sp = 0x411e then some (cp21_set_baud (usb_setup_reset s) sp)
  else if usb_setup_tag sp = 0x4103 then some (cp21_set_line (usb_setup_reset s) sp)
  else if usb_setup_tag sp = 0x4119 then some (cp21_set_chars (usb_setup_reset s) sp)
  else if usb_setup_tag sp = 0xc114 then some (cp21_get_flow (usb_setup_reset s) sp)
  else if usb_setup_tag sp = 0xc108 then some (cp21_get_modem (usb_setup_reset s) sp)
  else if usb_setup_tag sp = 0x4107 then some (cp21_set_modem (usb_setup_reset s) sp)
  else if usb_setup_tag sp = 0xc110 then some (cp21_get_status (usb_setup_reset s) sp)
  else some (usb_setup_reset s)

/-- `memcpy(dst, src, count)` on a byte-list destination: overwrite the first
`count` bytes.  (`count` beyond the destination length models the C buffer
overrun by growing the list.) -/
def memcpy_list (dst src : List Nat) : List Nat :=
  src ++ dst.drop src.length

/-- `usb_control(buf, count)` (usb_enum.c): a DATA-OUT payload is captured
into the buffer selected by the armed consumer; with no consumer armed it is
answered with a zero-length packet and no buffer changes. -/
def usb_control (s : DevState) (buf : List Nat) : DevState :=
  if s.cp21_control = Cp21Control.BAUD then
    { s with cp21_baud := memcpy_list s.cp21_baud buf }
  else if s.cp21_control = Cp21Control.CHARS then
    { s with cp21_chars := memcpy_list s.cp21_chars buf }
  else
    usb_endpoint_send_zlp s 0

@[simp] theorem usb_endpoint_send_usb_state (s : DevState) (ep : Nat) (buf : List Nat) :
    (usb_endpoint_send s ep buf).usb_current_state = s.usb_current_state := by
  unfold usb_endpoint_send
  split <;> rfl

@[simp] theorem usb_endpoint_send_uart_state (s : DevState) (ep : Nat) (buf : List Nat) :
    (usb_endpoint_send s ep buf).uart_current_state = s.uart_current_state := by
  unfold usb_endpoint_send
  split <;> rfl

@[simp] theorem usb_endpoint_send_control (s : DevState) (ep : Nat) (buf : List Nat) :
    (usb_endpoint_send s ep buf).cp21_control = s.cp21_control := by
  unfold usb_endpoint_send
  split <;> rfl

@[simp] theorem usb_endpoint_send_baud (s : DevState) (ep : Nat) (buf : List Nat) :
    (usb_endpoint_send s ep buf).cp21_baud = s.cp21_baud := by
  unfold usb_endpoint_send
  split <;> rfl

@[simp] theorem usb_endpoint_send_chars (s : DevState) (ep : Nat) (buf : List Nat) :
    (usb_endpoint_send s ep buf).cp21_chars = s.cp21_chars := by
  unfold usb_endpoint_send
  split <;> rfl

@[simp] theorem usb_endpoint_send_daddr (s : DevState) (ep : Nat) (buf : List Nat) :
    (usb_endpoint_send s ep buf).daddr = s.daddr := by
  unfold usb_endpoint_send
  split <;> rfl

@[simp] theorem usb_endpoint_send_pending (s : DevState) (ep : Nat) (buf : List Nat) :
    (usb_endpoint_send s ep buf).pending_address = s.pending_address := by
  unfold usb_endpoint_send
  split <;> rfl

@[simp] theorem zlp_usb_state (s : DevState) (ep : Nat) :
    (usb_endpoint_send_zlp s ep).usb_current_state = s.usb_current_state := rfl

@[simp] theorem zlp_uart_state (s : DevState) (ep : Nat) :
    (usb_endpoint_send_zlp s ep).uart_current_state = s.uart_current_state := rfl

@[simp] theorem zlp_control (s : DevState) (ep : Nat) :
    (usb_endpoint_send_zlp s ep).cp21_control = s.cp21_control := rfl

@[simp] theorem zlp_baud (s : DevState) (ep : Nat) :
    (usb_endpoint_send_zlp s ep).cp21_baud = s.cp21_baud := rfl

@[simp] theorem zlp_chars (s : DevState) (ep : Nat) :
    (usb_endpoint_send_zlp s ep).cp21_chars = s.cp21_chars := rfl

@[simp] theorem zlp_daddr (s : DevState) (ep : Nat) :
    (usb_endpoint_send_zlp s ep).daddr = s.daddr := rfl

@[simp] theorem zlp_pending (s : DevState) (ep : Nat) :
    (usb_endpoint_send_zlp s ep).pending_address = s.pending_address := rfl

@[simp] theorem zlp_sends (s : DevState) (ep : Nat) :
    (usb_endpoint_send_zlp s ep).sends = s.sends ++ [(ep, [])] := rfl

theorem get_descriptor_control {s s1 : DevState} {sp : Setup}
    (h : get_descriptor s sp = some s1) :
    s1.cp21_control = s.cp21_control ∧
    s1.usb_current_state = s.usb_current_state := by
  unfold get_descriptor at h
  split_ifs at h
  all_goals
    first
    | (injection h with h
       subst h
       exact ⟨by simp, by simp⟩)
    | (revert h
       cases string_send (sp.value &&& 0xff) with
       | none => intro h; cases h
       | some msg =>
         intro h
         injection h with h
         subst h
         exact ⟨by simp, by simp⟩)

theorem usb_setup_class {s : DevState} {sp : Setup} (h : sp.rtype = 0x21) :
    usb_setup s sp = some (usb_endpoint_send_zlp s 0) := by
  unfold usb_setup usb_class
  rw [if_pos h]

theorem usb_setup_config {s : DevState} {sp : Setup} (hcl : sp.rtype ≠ 0x21)
    (ht : usb_setup_tag sp = 9) :
    usb_setup s sp = some (set_configuration_req (usb_setup_reset s) sp) := by
  unfold usb_setup
  rw [if_neg hcl, if_neg (by omega), if_neg (by omega), if_pos ht]

/-! ## Claim theorems -/

/-- C1: the claim states that each status-changing helper leaves its
targeted 2-bit status field exactly at its target value regardless of the
field's starting value (STALL = 0b01 for `stall`).  The code violates this
for `endpoint_stall`: at starting register value 0x20 (TX status = NAK) the
resulting TX status is VALID (0b11), not STALL (0b01) — the helper clears
the current STAT_TX bits from the written word (using the RX-side preserve
mask `EP_TOGGLE_RX`), so the hardware toggle XORs the constant 0b01 into the
current field instead of moving it to STALL.  At the same starting value the
three sibling helpers do land on their targets. -/
theorem c1_stall_misses_target :
    ep_stat_tx 0x20 = 2 ∧
    ep_stat_tx (ep_step endpoint_stall_write 0x20) = 3 ∧
    ep_stat_tx (ep_step endpoint_stall_write 0x20) ≠ 1 ∧
    ep_stat_tx (ep_step endpoint_set_tx_valid_write 0x20) = 3 ∧
    ep_stat_tx (ep_step endpoint_set_tx_nak_write 0x20) = 2 ∧
    ep_stat_rx (ep_step endpoint_set_rx_ready_write 0x20) = 3 := by
  decide

/-- C2: for every capacity and every operation sequence on an initialized
queue, the count equals pushes minus successful pops minus tossed bytes
(stated additively), never exceeds the capacity, and a push onto a full
queue bumps only the `toss` counter — buffer, cursors and count are all
untouched. -/
theorem c2_queue_accounting (C : Nat) (ops : List QOp) :
    (runOps (cq_init C) ops).count + succPopCount (cq_init C) ops
        + (runOps (cq_init C) ops).toss = pushCount ops ∧
    (runOps (cq_init C) ops).count ≤ C ∧
    (∀ b, (runOps (cq_init C) ops).count = C →
      cq_add (runOps (cq_init C) ops) b
        = { runOps (cq_init C) ops with
            toss := (runOps (cq_init C) ops).toss + 1 }) := by
  obtain ⟨hs, hc, he⟩ := runOps_spec ops (cq_init C) (by simp [cq_init])
  have hsz : (runOps (cq_init C) ops).size = C := hs
  refine ⟨?_, by simpa [cq_init] using hc, ?_⟩
  · have h0 : (cq_init C).count = 0 := rfl
    have h1 : (cq_init C).toss = 0 := rfl
    omega
  · intro b hfull
    exact cq_add_full (by omega) b

theorem c2_queue_accounting_witness :
    (runOps (cq_init 2) [QOp.push 5, QOp.push 6]).count
        + succPopCount (cq_init 2) [QOp.push 5, QOp.push 6]
        + (runOps (cq_init 2) [QOp.push 5, QOp.push 6]).toss
      = pushCount [QOp.push 5, QOp.push 6] ∧
    cq_add (runOps (cq_init 2) [QOp.push 5, QOp.push 6]) 9
      = { runOps (cq_init 2) [QOp.push 5, QOp.push 6] with
          toss := (runOps (cq_init 2) [QOp.push 5, QOp.push 6]).toss + 1 } :=
  ⟨(c2_queue_accounting 2 [QOp.push 5, QOp.push 6]).1,
   (c2_queue_accounting 2 [QOp.push 5, QOp.push 6]).2.2 9 (by decide)⟩

/-- C3 counterexample: for a SET_ADDRESS request carrying the (protocol-legal)
new address 0, the code records `pending_address = 0`, which is
indistinguishable from "no address pending" (`if (pending_address)` in
`ctr0`), so the following endpoint-0 transmit-complete never writes the
address register: starting from an applied address 5 (`DADDR = 0x85`), after
SET_ADDRESS(0) and the status-stage TX-complete the register still holds
0x85, while the claim requires it to be written with the new address
(`0x80 ||| 0 = 0x80`). -/
theorem c3_counterexample :
    (usb_setup { initialDevState with daddr := 0x85 } ⟨0, 5, 0, 0, 0⟩).map
        (fun d => ((ctr0_tx d).daddr, (ctr0_tx d).pending_address))
      = some (0x85, 0) ∧
    (0x85 : Nat) ≠ 0x80 ||| (0 &&& 0x7f) := by
  decide

/-- C3 (amended to nonzero addresses): handling SET_ADDRESS (tag 0x0005)
with a nonzero address value answers with a zero-length status packet and
records the address as pending; the DADDR register is untouched by the
handler itself and is written — with `USB_DADDR_EF ||| (address &&& 0x7f)` —
only by the next endpoint-0 transmit-complete, which also clears the pending
value. -/
theorem c3_set_address_deferred (s : DevState) (a i l : Nat) (ha : a ≠ 0) :
    (usb_setup s ⟨0, 5, a, i, l⟩).map
        (fun s1 => (s1.daddr, s1.pending_address, s1.sends,
                    (ctr0_tx s1).daddr, (ctr0_tx s1).pending_address))
      = some (s.daddr, a, s.sends ++ [(0, [])], 0x80 ||| (a &&& 0x7f), 0) := by
  simp [usb_setup, usb_setup_tag, usb_setup_reset, set_address_req,
    usb_pend_address, usb_endpoint_send_zlp, ctr0_tx, hw_set_address, ha]

theorem c3_set_address_deferred_witness :
    (usb_setup initialDevState ⟨0, 5, 5, 0, 0⟩).map
        (fun s1 => (s1.daddr, s1.pending_address, s1.sends,
                    (ctr0_tx s1).daddr, (ctr0_tx s1).pending_address))
      = some (initialDevState.daddr, 5, initialDevState.sends ++ [(0, [])],
              0x80 ||| (5 &&& 0x7f), 0) :=
  c3_set_address_deferred initialDevState 5 0 0 (by decide)

/-- C4: `usb_endpoint_send` on endpoint 1 with a 65-byte buffer sends
exactly the first 64 bytes, records the 1-byte remainder and raises
`F_TX_REM` — but the endpoint-1 transmit-complete handler (`data_ctr`'s TX
branch) only clears `F_TX_BUSY`: the continuation is never transmitted and
`F_TX_REM` stays set (only `ctr0`, the endpoint-0 handler, ever calls
`endpoint_rem`).  For contrast, the same oversized send on endpoint 0
followed by `ctr0`'s TX-complete does transmit the remainder and clears the
flag. -/
theorem c4_ep1_continuation_never_sent :
    (usb_endpoint_send initialDevState 1 (List.replicate 65 7)).sends
        = [(1, List.replicate 64 7)] ∧
    (usb_endpoint_send initialDevState 1 (List.replicate 65 7)).tx_rem
        = List.replicate 1 7 ∧
    getFlags (usb_endpoint_send initialDevState 1 (List.replicate 65 7)) 1
        &&& F_TX_REM ≠ 0 ∧
    (data_ctr_tx (usb_endpoint_send initialDevState 1 (List.replicate 65 7)) 1).sends
        = [(1, List.replicate 64 7)] ∧
    getFlags (data_ctr_tx (usb_endpoint_send initialDevState 1 (List.replicate 65 7)) 1) 1
        &&& F_TX_REM ≠ 0 ∧
    (ctr0_tx (usb_endpoint_send initialDevState 0 (List.replicate 65 7))).sends
        = [(0, List.replicate 64 7), (0, List.replicate 1 7)] ∧
    getFlags (ctr0_tx (usb_endpoint_send initialDevState 0 (List.replicate 65 7))) 0
        &&& F_TX_REM = 0 := by
  decide

/-- C5 counterexample: a hardware USB reset event (`reset()` in usb.c) only
re-initializes the endpoints and zeroes the device address; it does not
write `usb_current_state`, so from a CONFIGURED device it does not return
the enumeration state to INIT as the claim requires. -/
theorem c5_counterexample :
    (usb_reset { initialDevState with
        usb_current_state := UsbState.CONFIGURED }).usb_current_state
      = UsbState.CONFIGURED ∧
    UsbState.CONFIGURED ≠ UsbState.INIT := by
  decide


theorem usb_setup_cases {s s1 : DevState} {sp : Setup}
    (hcl : sp.rtype ≠ 0x21) (h : usb_setup s sp = some s1) :
    (usb_setup_tag sp = 0x8006 ∧ get_descriptor (usb_setup_reset s) sp = some s1) ∨
    (usb_setup_tag sp = 0x0005 ∧ s1 = set_address_req (usb_setup_reset s) sp) ∨
    (usb_setup_tag sp = 0x0009 ∧ s1 = set_configuration_req (usb_setup_reset s) sp) ∨
    (usb_setup_tag sp = 0xc0ff ∧ s1 = cp21_vendor (usb_setup_reset s) sp) ∨
    (usb_setup_tag sp = 0x4100 ∧ s1 = cp21_enable (usb_setup_reset s) sp) ∨
    (usb_setup_tag sp = 0x411e ∧ s1 = cp21_set_baud (usb_setup_reset s) sp) ∨
    (usb_setup_tag sp = 0x4103 ∧ s1 = cp21_set_line (usb_setup_reset s) sp) ∨
    (usb_setup_tag sp = 0x4119 ∧ s1 = cp21_set_chars (usb_setup_reset s) sp) ∨
    (usb_setup_tag sp = 0xc114 ∧ s1 = cp21_get_flow (usb_setup_reset s) sp) ∨
    (usb_setup_tag sp = 0xc108 ∧ s1 = cp21_get_modem (usb_setup_reset s) sp) ∨
    (usb_setup_tag sp = 0x4107 ∧ s1 = cp21_set_modem (usb_setup_reset s) sp) ∨
    (usb_setup_tag sp = 0xc110 ∧ s1 = cp21_get_status (usb_setup_reset s) sp) ∨
    ((usb_setup_tag sp ≠ 0x411e ∧ usb_setup_tag sp ≠ 0x4119) ∧ s1 = usb_setup_reset s) := by
  unfold usb_setup at h
  rw [if_neg hcl] at h
  by_cases h1 : usb_setup_tag sp = 0x8006
  · rw [if_pos h1] at h
    exact Or.inl ⟨h1, h⟩
  rw [if_neg h1] at h
  by_cases h2 : usb_setup_tag sp = 0x0005
  · rw [if_pos h2] at h
    injection h with h
    exact Or.inr (Or.inl ⟨h2, h.symm⟩)
  rw [if_neg h2] at h
  by_cases h3 : usb_setup_tag sp = 0x0009
  · rw [if_pos h3] at h
    injection h with h
    exact Or.inr (Or.inr (Or.inl ⟨h3, h.symm⟩))
  rw [if_neg h3] at h
  by_cases h4 : usb_setup_tag sp = 0xc0ff
  · rw [if_pos h4] at h
    injection h with h
    exact Or.inr (Or.inr (Or.inr (Or.inl ⟨h4, h.symm⟩)))
  rw [if_neg h4] at h
  by_cases h5 : usb_setup_tag sp = 0x4100
  · rw [if_pos h5] at h
    injection h with h
    exact Or.inr (Or.inr (Or.inr (Or.inr (Or.inl ⟨h5, h.symm⟩))))
  rw [if_neg h5] at h
  by_cases h6 : usb_setup_tag sp = 0x411e
  · rw [if_pos h6] at h
    injection h with h
    exact Or.inr (Or.inr (Or.inr (Or.inr (Or.inr (Or.inl ⟨h6, h.symm⟩)))))
  rw [if_neg h6] at h
  by_cases h7 : usb_setup_tag sp = 0x4103
  · rw [if_pos h7] at h
    injection h with h
    exact Or.inr (Or.inr (Or.inr (Or.inr (Or.inr (Or.inr (Or.inl ⟨h7, h.symm⟩))))))
  rw [if_neg h7] at h
  by_cases h8 : usb_setup_tag sp = 0x4119
  · rw [if_pos h8] at h
    injection h with h
    exact Or.inr (Or.inr (Or.inr (Or.inr (Or.inr (Or.inr (Or.inr
      (Or.inl ⟨h8, h.symm⟩)))))))
  rw [if_neg h8] at h
  by_cases h9 : usb_setup_tag sp = 0xc114
  · rw [if_pos h9] at h
    injection h with h
    exact Or.inr (Or.inr (Or.inr (Or.inr (Or.inr (Or.inr (Or.inr (Or.inr
      (Or.inl ⟨h9, h.symm⟩))))))))
  rw [if_neg h9] at h
  by_cases h10 : usb_setup_tag sp = 0xc108
  · rw [if_pos h10] at h
    injection h with h
    exact Or.inr (Or.inr (Or.inr (Or.inr (Or.inr (Or.inr (Or.inr (Or.inr (Or.inr
      (Or.inl ⟨h10, h.symm⟩)))))))))
  rw [if_neg h10] at h
  by_cases h11 : usb_setup_tag sp = 0x4107
  · rw [if_pos h11] at h
    injection h with h
    exact Or.inr (Or.inr (Or.inr (Or.inr (Or.inr (Or.inr (Or.inr (Or.inr (Or.inr
      (Or.inr (Or.inl ⟨h11, h.symm⟩))))))))))
  rw [if_neg h11] at h
  by_cases h12 : usb_setup_tag sp = 0xc110
  · rw [if_pos h12] at h
    injection h with h
    exact Or.inr (Or.inr (Or.inr (Or.inr (Or.inr (Or.inr (Or.inr (Or.inr (Or.inr
      (Or.inr (Or.inr (Or.inl ⟨h12, h.symm⟩)))))))))))
  rw [if_neg h12] at h
  injection h with h
  exact Or.inr (Or.inr (Or.inr (Or.inr (Or.inr (Or.inr (Or.inr (Or.inr (Or.inr
    (Or.inr (Or.inr (Or.inr ⟨⟨h6, h8⟩, h.symm⟩)))))))))))

/-- C5 (amended): the enumeration state starts at BOOT, is set to INIT by
`usb_init`, and is set to CONFIGURED exactly by the SET_CONFIGURATION
dispatch (tag 0x0009); a hardware reset event leaves it unchanged. -/
theorem c5_device_state_machine :
    initialDevState.usb_current_state = UsbState.BOOT ∧
    (∀ s, (usb_init_dev s).usb_current_state = UsbState.INIT) ∧
    (∀ s v i l, (usb_setup s ⟨0, 9, v, i, l⟩).map DevState.usb_current_state
        = some UsbState.CONFIGURED) ∧
    (∀ s sp s1, usb_setup s sp = some s1 →
        usb_setup_tag sp ≠ 0x0009 →
        s1.usb_current_state = s.usb_current_state) ∧
    (∀ s, (usb_reset s).usb_current_state = s.usb_current_state) := by
  refine ⟨rfl, fun s => rfl,
    fun s v i l => by
      rw [@usb_setup_config s ⟨0, 9, v, i, l⟩ (by simp) (by simp [usb_setup_tag])]
      rfl,
    ?_, fun s => rfl⟩
  intro s sp s1 h htag
  by_cases hcl : sp.rtype = 0x21
  · rw [usb_setup_class hcl] at h
    injection h with h
    subst h
    simp
  · rcases usb_setup_cases hcl h with
      ⟨_, hg⟩ | ⟨_, h1⟩ | ⟨ht9, _⟩ | ⟨_, h1⟩ | ⟨_, h1⟩ | ⟨_, h1⟩ | ⟨_, h1⟩ |
      ⟨_, h1⟩ | ⟨_, h1⟩ | ⟨_, h1⟩ | ⟨_, h1⟩ | ⟨_, h1⟩ | ⟨_, h1⟩
    · rw [(get_descriptor_control hg).2]
      simp [usb_setup_reset]
    · subst h1
      simp [set_address_req, usb_pend_address, usb_setup_reset]
    · exact absurd ht9 htag
    · subst h1
      simp [cp21_vendor, usb_setup_reset]
    · subst h1
      unfold cp21_enable
      split <;> simp [usb_setup_reset]
    · subst h1
      simp [cp21_set_baud, usb_setup_reset]
    · subst h1
      simp [cp21_set_line, usb_setup_reset]
    · subst h1
      simp [cp21_set_chars, usb_setup_reset]
    · subst h1
      simp [cp21_get_flow, usb_setup_reset]
    · subst h1
      simp [cp21_get_modem, usb_setup_reset]
    · subst h1
      unfold cp21_set_modem
      split <;> simp [usb_setup_reset]
    · subst h1
      simp [cp21_get_status, usb_setup_reset]
    · subst h1
      rfl

theorem c5_device_state_machine_witness :
    (usb_setup initialDevState ⟨0xc0, 0xff, 0, 0, 1⟩).map
        DevState.usb_current_state = some UsbState.BOOT := by
  have h1 := c5_device_state_machine.2.2.2.1 initialDevState ⟨0xc0, 0xff, 0, 0, 1⟩
      (cp21_vendor (usb_setup_reset initialDevState) ⟨0xc0, 0xff, 0, 0, 1⟩)
      (by decide) (by decide)
  rw [(by decide : usb_setup initialDevState ⟨0xc0, 0xff, 0, 0, 1⟩
      = some (cp21_vendor (usb_setup_reset initialDevState) ⟨0xc0, 0xff, 0, 0, 1⟩)),
    Option.map_some', h1]
  rfl

/-- C6: FIFO round-trip and overflow retention.  Pushing `n ≤ C` bytes into
a freshly initialized queue of capacity `C` and popping `n` times returns
exactly the pushed bytes in order; pushing `C + k` bytes with no pops leaves
`count = C` and `toss = k`, and the retained contents (returned by popping
`C` times) are exactly the first `C` bytes — the later `k` are the ones
discarded. -/
theorem c6_fifo_roundtrip (C k : Nat) (bs : List Nat) (hC : 0 < C)
    (hn : bs.length ≤ C) (hbytes : ∀ b ∈ bs, b < 256) :
    (popN (pushAll (cq_init C) bs) bs.length).fst = bs.map Int.ofNat ∧
    (∀ cs : List Nat, cs.length = C + k → (∀ b ∈ cs, b < 256) →
      (pushAll (cq_init C) cs).count = C ∧
      (pushAll (cq_init C) cs).toss = k ∧
      (popN (pushAll (cq_init C) cs) C).fst = (cs.take C).map Int.ofNat) := by
  have hinit : (cq_init C).Wf := wf_init hC
  constructor
  · obtain ⟨hw1, hs1, hl1, hc1, -⟩ := pushAll_spec bs (cq_init C) hinit
    have hl : (pushAll (cq_init C) bs).toList = bs := by
      rw [hl1, toList_init]
      show [] ++ (bs.take (C - 0)).map (fun b => b % 256) = bs
      rw [List.nil_append, Nat.sub_zero, List.take_of_length_le hn,
        List.map_congr_left (fun b hb => Nat.mod_eq_of_lt (hbytes b hb)),
        List.map_id']
    have hcnt : (pushAll (cq_init C) bs).count = bs.length := by
      rw [hc1]
      show min (0 + bs.length) C = bs.length
      omega
    obtain ⟨hp1, -, -, -, -⟩ := popN_spec bs.length _ hw1 (le_of_eq hcnt.symm)
    rw [hp1, hl, List.take_length]
  · intro cs hlen hcsb
    obtain ⟨hw1, hs1, hl1, hc1, ht1⟩ := pushAll_spec cs (cq_init C) hinit
    have hl : (pushAll (cq_init C) cs).toList = cs.take C := by
      rw [hl1, toList_init]
      show [] ++ ((cs.take (C - 0)).map (fun b => b % 256)) = cs.take C
      rw [List.nil_append, Nat.sub_zero,
        List.map_congr_left
          (fun b hb => Nat.mod_eq_of_lt (hcsb b (List.mem_of_mem_take hb))),
        List.map_id']
    have hcnt : (pushAll (cq_init C) cs).count = C := by
      rw [hc1]
      show min (0 + cs.length) C = C
      omega
    refine ⟨hcnt, ?_, ?_⟩
    · rw [ht1]
      show 0 + (cs.length - (C - 0)) = k
      omega
    · obtain ⟨hp1, -, -, -, -⟩ := popN_spec C _ hw1 (le_of_eq hcnt.symm)
      rw [hp1, hl, List.take_of_length_le (by rw [List.length_take]; omega)]

theorem c6_fifo_roundtrip_witness :
    (popN (pushAll (cq_init 2) [10, 20]) 2).fst = [10, 20].map Int.ofNat ∧
    (pushAll (cq_init 2) [1, 2, 3]).count = 2 ∧
    (pushAll (cq_init 2) [1, 2, 3]).toss = 1 ∧
    (popN (pushAll (cq_init 2) [1, 2, 3]) 2).fst
      = ([1, 2, 3].take 2).map Int.ofNat := by
  have h := c6_fifo_roundtrip 2 1 [10, 20] (by decide) (by decide) (by decide)
  have h2 := h.2 [1, 2, 3] (by decide) (by decide)
  exact ⟨h.1, h2.1, h2.2.1, h2.2.2⟩

/-- C7: the bulk-channel send (`endpoint_send` in usb.c) is a no-op — the
state is returned completely unchanged, so no transfer is armed and no flag,
buffer-table entry or packet memory is touched — whenever the device is not
CONFIGURED or the emulated UART is not ENABLED. -/
theorem c7_send_refused (s : DevState) (ep : Nat) (buf : List Nat)
    (h : s.usb_current_state ≠ UsbState.CONFIGURED ∨
         s.uart_current_state ≠ UartState.ENABLED) :
    endpoint_send s ep buf = some s := by
  unfold endpoint_send
  by_cases h1 : s.usb_current_state ≠ UsbState.CONFIGURED
  · rw [if_pos h1]
  · rcases h with h | h
    · exact absurd h h1
    · rw [if_neg h1, if_pos h]

theorem c7_send_refused_witness :
    endpoint_send initialDevState 1 [65, 66] = some initialDevState :=
  c7_send_refused initialDevState 1 [65, 66] (Or.inl (by decide))

/-- C8: for a GET_DESCRIPTOR of a String descriptor, index 0 yields the
4-byte language table; each index 1–3 yields a length-prefixed descriptor
whose length field is `2 + 2 * strlen` and in which every ASCII source
character is widened to a 16-bit little-endian code unit with zero high
byte; every index ≥ 4 is a fatal protocol violation (the firmware's halt,
modelled as `none`). -/
theorem c8_string_descriptors :
    string_send 0 = some my_language_string_desc ∧
    (∀ i, 1 ≤ i → i ≤ 3 →
      string_send i
        = some ([2 + 2 * (my_strings.getD i []).length, 3]
            ++ (my_strings.getD i []).flatMap (fun c => [c, 0]))) ∧
    (∀ i, 4 ≤ i → string_send i = none) := by
  refine ⟨rfl, ?_, ?_⟩
  · intro i h1 h3
    interval_cases i <;> rfl
  · intro i h4
    unfold string_send
    rw [if_neg (by omega), if_pos (by omega)]

theorem c8_string_descriptors_witness :
    string_send 2 = some ([2 + 2 * (my_strings.getD 2 []).length, 3]
        ++ (my_strings.getD 2 []).flatMap (fun c => [c, 0])) ∧
    string_send 7 = none :=
  ⟨c8_string_descriptors.2.1 2 (by decide) (by decide),
   c8_string_descriptors.2.2 7 (by decide)⟩

/-- C9 counterexample: the bulk receive loop in `data_ctr` guards every push
with `if (cq_space(&in_queue) > 0)`, so a byte arriving at a full queue is
dropped without ever calling `cq_add` — the toss counter does NOT increment,
contradicting the claim that it increments by one per discarded byte: on a
full capacity-1 queue, receiving one byte leaves the state (toss included)
completely unchanged. -/
theorem c9_counterexample :
    dataCtrRx (cq_add (cq_init 1) 65) [66] = cq_add (cq_init 1) 65 ∧
    (dataCtrRx (cq_add (cq_init 1) 65) [66]).toss = 0 ∧
    ¬ (dataCtrRx (cq_add (cq_init 1) 65) [66]).toss
        = (cq_add (cq_init 1) 65).toss + 1 := by
  decide

/-- C9 (amended): on a bulk receive-complete, the packet's bytes are pushed
into the queue in arrival order while space remains (exactly the first
`capacity - count` of them, each truncated to a char); every byte arriving
while the queue is full is discarded silently — the `cq_space` guard skips
`cq_add` entirely, so the overflow (toss) counter never changes on this
path. -/
theorem c9_bulk_receive (q : Cqueue) (pkt : List Nat) (hw : q.Wf) :
    (dataCtrRx q pkt).toList
      = q.toList ++ (pkt.take (q.size - q.count)).map (fun b => b % 256) ∧
    (dataCtrRx q pkt).count = min (q.count + pkt.length) q.size ∧
    (dataCtrRx q pkt).toss = q.toss := by
  obtain ⟨-, -, hl, hc, ht⟩ := dataCtrRx_spec pkt q hw
  exact ⟨hl, hc, ht⟩

theorem c9_bulk_receive_witness :
    (dataCtrRx (cq_init 2) [7, 8, 9]).toList
      = (cq_init 2).toList ++ ([7, 8, 9].take (2 - 0)).map (fun b => b % 256) ∧
    (dataCtrRx (cq_init 2) [7, 8, 9]).count = min (0 + 3) 2 ∧
    (dataCtrRx (cq_init 2) [7, 8, 9]).toss = 0 :=
  c9_bulk_receive (cq_init 2) [7, 8, 9] (by decide)

/-- C10 counterexample: a class SETUP (request-type 0x21) does not reset the
armed control-data consumer — `usb_setup` returns before the
`cp21_control = NONE;` line.  So with SET_BAUDDIV followed by an intervening
class SETUP, the next DATA-OUT payload is still copied into the baud capture
buffer, although the immediately preceding SETUP was not SET_BAUDDIV; the
claim says any intervening SETUP leaves both capture buffers unchanged. -/
theorem c10_counterexample :
    ((usb_setup initialDevState ⟨0x41, 0x1e, 0, 0, 2⟩).bind
        (fun d => usb_setup d ⟨0x21, 0x09, 0, 0, 2⟩)).map
        (fun d => (usb_control d [9, 9]).cp21_baud)
      = some [9, 9, 0, 0] ∧
    [9, 9, 0, 0] ≠ initialDevState.cp21_baud := by
  decide

/-- C10 (amended to non-class SETUPs): every non-class SETUP (request-type ≠
0x21) resets the armed consumer before dispatching, leaving it BAUD exactly
for tag 0x411e, CHARS exactly for tag 0x4119 and NONE for every other tag;
a DATA-OUT payload is then captured into the baud (resp. chars) buffer iff
the consumer is armed, and with no consumer armed it leaves both capture
buffers unchanged and is answered with a zero-length packet.  (Class SETUPs
skip the reset, so only an intervening non-class SETUP disarms capture.) -/
theorem c10_control_data_consumer :
    (∀ s s1 sp, sp.rtype ≠ 0x21 → usb_setup s sp = some s1 →
       s1.cp21_control
         = (if usb_setup_tag sp = 0x411e then Cp21Control.BAUD
            else if usb_setup_tag sp = 0x4119 then Cp21Control.CHARS
            else Cp21Control.NONE)) ∧
    (∀ s buf, s.cp21_control = Cp21Control.NONE →
       usb_control s buf = usb_endpoint_send_zlp s 0 ∧
       (usb_control s buf).cp21_baud = s.cp21_baud ∧
       (usb_control s buf).cp21_chars = s.cp21_chars ∧
       (usb_control s buf).sends = s.sends ++ [(0, [])]) ∧
    (∀ s buf, s.cp21_control = Cp21Control.BAUD →
       (usb_control s buf).cp21_baud = memcpy_list s.cp21_baud buf) ∧
    (∀ s buf, s.cp21_control = Cp21Control.CHARS →
       (usb_control s buf).cp21_chars = memcpy_list s.cp21_chars buf) := by
  refine ⟨?_, ?_, ?_, ?_⟩
  · intro s s1 sp hcl h
    rcases usb_setup_cases hcl h with
      ⟨ht, hg⟩ | ⟨ht, h1⟩ | ⟨ht, h1⟩ | ⟨ht, h1⟩ | ⟨ht, h1⟩ | ⟨ht, h1⟩ | ⟨ht, h1⟩ |
      ⟨ht, h1⟩ | ⟨ht, h1⟩ | ⟨ht, h1⟩ | ⟨ht, h1⟩ | ⟨ht, h1⟩ | ⟨⟨hn1, hn2⟩, h1⟩
    · rw [ht, (get_descriptor_control hg).1]
      simp [usb_setup_reset]
    · subst h1
      rw [ht]
      simp [set_address_req, usb_pend_address, usb_setup_reset]
    · subst h1
      rw [ht]
      simp [set_configuration_req, usb_setup_reset]
    · subst h1
      rw [ht]
      simp [cp21_vendor, usb_setup_reset]
    · subst h1
      rw [ht]
      unfold cp21_enable
      split <;> simp [usb_setup_reset]
    · subst h1
      rw [ht]
      simp [cp21_set_baud, usb_setup_reset]
    · subst h1
      rw [ht]
      simp [cp21_set_line, usb_setup_reset]
    · subst h1
      rw [ht]
      simp [cp21_set_chars, usb_setup_reset]
    · subst h1
      rw [ht]
      simp [cp21_get_flow, usb_setup_reset]
    · subst h1
      rw [ht]
      simp [cp21_get_modem, usb_setup_reset]
    · subst h1
      rw [ht]
      unfold cp21_set_modem
      split <;> simp [usb_setup_reset]
    · subst h1
      rw [ht]
      simp [cp21_get_status, usb_setup_reset]
    · subst h1
      rw [if_neg hn1, if_neg hn2]
      rfl
  · intro s buf hc
    unfold usb_control
    rw [hc]
    refine ⟨by simp, by simp, by simp, by simp⟩
  · intro s buf hc
    unfold usb_control
    rw [hc]
    rfl
  · intro s buf hc
    unfold usb_control
    rw [hc]
    rfl

theorem c10_control_data_consumer_witness :
    (cp21_set_baud (usb_setup_reset initialDevState) ⟨0x41, 0x1e, 0, 0, 2⟩).cp21_control
      = (if usb_setup_tag ⟨0x41, 0x1e, 0, 0, 2⟩ = 0x411e then Cp21Control.BAUD
         else if usb_setup_tag ⟨0x41, 0x1e, 0, 0, 2⟩ = 0x4119 then Cp21Control.CHARS
         else Cp21Control.NONE) ∧
    usb_control initialDevState [9, 9] = usb_endpoint_send_zlp initialDevState 0 ∧
    (usb_control { initialDevState with cp21_control := Cp21Control.BAUD } [9, 9]).cp21_baud
      = memcpy_list initialDevState.cp21_baud [9, 9] :=
  ⟨c10_control_data_consumer.1 initialDevState
      (cp21_set_baud (usb_setup_reset initialDevState) ⟨0x41, 0x1e, 0, 0, 2⟩)
      ⟨0x41, 0x1e, 0, 0, 2⟩ (by decide) (by decide),
   (c10_control_data_consumer.2.1 initialDevState [9, 9] rfl).1,
   c10_control_data_consumer.2.2.1
      { initialDevState with cp21_control := Cp21Control.BAUD } [9, 9] rfl⟩
